import Mathlib

/-!
# Verification of the `lottery` tenant session store and draw engine

A shallow embedding of `internal/services/lottery_service.go` (together with the
record types of `internal/models/lottery.go`) and proofs of the specified
properties of the session store and draw engine.

Modelling conventions:
* Go strings are `String`, Go `int` is `Int` (so that negative quantities are
  representable, as they are in Go), `time.Time` is an `Int` nanosecond
  timestamp and `time.Since x` at instant `now` is `now - x`.
* The Go map `map[string]*LotterySession` is a function
  `String → Option LotterySession`; `delete` maps the key to `none`.
* The Go map `Winners map[string]map[string]bool` only ever stores `true`
  values (`session.Winners[id][name] = true` is the single write), so it is
  embedded as an association list from participant ID to the list of prize
  names won.
* `rand.Intn n` is embedded by an external choice `k : Nat` reduced mod `n`;
  every theorem quantifies over `k`, so the results hold for every outcome of
  the random source.
* `errors.New` values are the Go message strings, and fallible functions
  return `Except String`.
* Each exported method takes the service value and the current instant `now`
  and returns its result together with the updated service value.
-/

set_option autoImplicit false

namespace Lottery

/-- Embeds `models.Prize`: prize category with name, item label, remaining
quantity and the eligibility-mode flag. -/
structure Prize where
  name : String
  item : String
  quantity : Int
  drawFromAll : Bool
  deriving Repr, DecidableEq

/-- Embeds `models.Participant`. -/
structure Participant where
  id : String
  name : String
  deriving Repr, DecidableEq

/-- Embeds `models.LotteryResult`: one line of the append-only result log. -/
structure LotteryResult where
  prizeName : String
  prizeItem : String
  winnerID : String
  winnerName : String
  deriving Repr, DecidableEq

/-- Reading the win-record map: `session.Winners[pid]` — a missing key is the
empty set (a `nil` Go map reads as all-false). -/
def winsOf (w : List (String × List String)) (pid : String) : List String :=
  match w.find? (fun e => e.1 == pid) with
  | some e => e.2
  | none => []

/-- Writing the win-record map: `session.Winners[pid][pname] = true`, creating
the inner map when absent (lottery_service.go lines 110–114). -/
def addWin (w : List (String × List String)) (pid pname : String) :
    List (String × List String) :=
  match w.find? (fun e => e.1 == pid) with
  | some _ =>
      w.map (fun e =>
        if e.1 == pid then (e.1, if e.2.contains pname then e.2 else e.2 ++ [pname]) else e)
  | none => w ++ [(pid, [pname])]

/-- Embeds `services.LotterySession`. -/
structure LotterySession where
  prizes : List Prize
  participants : List Participant
  winners : List (String × List String)
  lotteryResults : List LotteryResult
  lastActivity : Int
  deriving Repr, DecidableEq

/-- Embeds `services.LotteryService`: the tenant-keyed session map. -/
abbrev LotteryService := String → Option LotterySession

/-- `NewLotteryService`: the empty session map. -/
def emptyService : LotteryService := fun _ => none

/-- The fresh session built inside `getSession` when the tenant is absent. -/
def emptySession (now : Int) : LotterySession :=
  { prizes := [], participants := [], winners := [], lotteryResults := [],
    lastActivity := now }

/-- Storing a session under a tenant key (`s.sessions[tenantID] = session`,
or an in-place mutation of the session the map already points to). -/
def setSession (svc : LotteryService) (tenantID : String) (s : LotterySession) :
    LotteryService :=
  fun t => if t == tenantID then some s else svc t

/-- The session value `getSession` hands back: the stored one (with its
`LastActivity` refreshed to `now`) or a fresh empty one. -/
def sessionOf (svc : LotteryService) (now : Int) (tenantID : String) : LotterySession :=
  match svc tenantID with
  | some s => { s with lastActivity := now }
  | none => emptySession now

/-- Embeds `getSession`: returns the session for the tenant, creating one if it
does not exist, and always refreshes `LastActivity` (lines 37–53). -/
def getSession (svc : LotteryService) (now : Int) (tenantID : String) :
    LotterySession × LotteryService :=
  (sessionOf svc now tenantID, setSession svc tenantID (sessionOf svc now tenantID))

/-- Embeds `GetPrizes`. -/
def GetPrizes (svc : LotteryService) (now : Int) (tenantID : String) :
    List Prize × LotteryService :=
  let gs := getSession svc now tenantID
  (gs.1.prizes, gs.2)

/-- Embeds `GetParticipants`. -/
def GetParticipants (svc : LotteryService) (now : Int) (tenantID : String) :
    List Participant × LotteryService :=
  let gs := getSession svc now tenantID
  (gs.1.participants, gs.2)

/-- Embeds `GetLotteryResults`. -/
def GetLotteryResults (svc : LotteryService) (now : Int) (tenantID : String) :
    List LotteryResult × LotteryService :=
  let gs := getSession svc now tenantID
  (gs.1.lotteryResults, gs.2)

/-- Embeds `AddPrize` (lines 71–74): unconditionally appends the new prize —
no validation of `quantity`, no uniqueness check on `name`. -/
def AddPrize (svc : LotteryService) (now : Int) (tenantID name item : String)
    (quantity : Int) (drawFromAll : Bool) : LotteryService :=
  let gs := getSession svc now tenantID
  setSession gs.2 tenantID
    { gs.1 with
      prizes := gs.1.prizes ++
        [{ name := name, item := item, quantity := quantity, drawFromAll := drawFromAll }] }

/-- Embeds `AddParticipant` (lines 77–85): appends unless a participant with
the same ID is already present, in which case it silently returns. -/
def AddParticipant (svc : LotteryService) (now : Int) (tenantID id name : String) :
    LotteryService :=
  let gs := getSession svc now tenantID
  if gs.1.participants.any (fun p => p.id == id) then gs.2
  else
    setSession gs.2 tenantID
      { gs.1 with participants := gs.1.participants ++ [{ id := id, name := name }] }

/-- The first prize whose `Name` equals `prizeName` (the lookup loop with
`break`, lines 131–137 and 97–103). -/
def findPrize (prizes : List Prize) (prizeName : String) : Option Prize :=
  prizes.find? (fun p => p.name == prizeName)

/-- `errors.New("指定的獎項不存在")` — prize not found. -/
def prizeNotFoundMsg : String := "指定的獎項不存在"

/-- `errors.New("該獎項已被抽完")` — prize exhausted. -/
def prizeExhaustedMsg : String := "該獎項已被抽完"

/-- `errors.New("沒有符合資格的參與者可供抽獎")` — no eligible participants. -/
def noEligibleMsg : String := "沒有符合資格的參與者可供抽獎"

/-- One iteration of the eligibility loop (lines 146–160): append `p` when the
prize's rule admits them. -/
def eligibleStep (winners : List (String × List String)) (target : Prize)
    (prizeName : String) (acc : List Participant) (p : Participant) : List Participant :=
  let wins := winsOf winners p.id
  if target.drawFromAll then
    if wins.contains prizeName then acc else acc ++ [p]
  else
    if wins.isEmpty then acc ++ [p] else acc

/-- The eligibility loop over the participant list. -/
def eligibleOf (session : LotterySession) (target : Prize) (prizeName : String) :
    List Participant :=
  session.participants.foldl (eligibleStep session.winners target prizeName) []

/-- The body of `GetEligibleParticipants` after `getSession` (lines 131–166):
prize lookup, exhaustion check, eligibility filter, emptiness check. -/
def eligibleResult (session : LotterySession) (prizeName : String) :
    Except String (List Participant) :=
  match findPrize session.prizes prizeName with
  | none => Except.error prizeNotFoundMsg
  | some target =>
    if target.quantity ≤ 0 then Except.error prizeExhaustedMsg
    else
      let eligible := eligibleOf session target prizeName
      if eligible.isEmpty then Except.error noEligibleMsg
      else Except.ok eligible

/-- Embeds `GetEligibleParticipants` (lines 128–167). -/
def GetEligibleParticipants (svc : LotteryService) (now : Int)
    (tenantID prizeName : String) : Except String (List Participant) × LotteryService :=
  let gs := getSession svc now tenantID
  (eligibleResult gs.1 prizeName, gs.2)

/-- `targetPrize.Quantity--` through the pointer to the first matching prize:
decrement the first prize named `prizeName`, leave every other list entry
untouched. -/
def decFirstPrize : List Prize → String → List Prize
  | [], _ => []
  | p :: ps, prizeName =>
    if p.name == prizeName then { p with quantity := p.quantity - 1 } :: ps
    else p :: decFirstPrize ps prizeName

/-- `eligibleParticipants[rand.Intn(len(eligibleParticipants))]` on the
nonempty eligible list, with the random draw `rand.Intn n` embedded as an
external choice `k` reduced mod `n`. -/
def pickWinner (e0 : Participant) (rest : List Participant) (k : Nat) : Participant :=
  (e0 :: rest).get ⟨k % (e0 :: rest).length, Nat.mod_lt _ (Nat.succ_pos _)⟩

/-- The body of `Draw` after `getSession` (lines 91–124), acting on the
tenant's session. The two `Except.error` fallbacks in the middle are
unreachable given a successful `eligibleResult` (in Go they would be a nil
dereference resp. a `rand.Intn` panic on an empty slice). -/
def drawCore (session : LotterySession) (k : Nat) (prizeName : String) :
    Except String LotteryResult × LotterySession :=
  match eligibleResult session prizeName with
  | Except.error e => (Except.error e, session)
  | Except.ok eligible =>
    match findPrize session.prizes prizeName, eligible with
    | none, _ => (Except.error prizeNotFoundMsg, session)
    | some _, [] => (Except.error noEligibleMsg, session)
    | some target, e0 :: rest =>
      let winner := pickWinner e0 rest k
      let result : LotteryResult :=
        { prizeName := target.name, prizeItem := target.item,
          winnerID := winner.id, winnerName := winner.name }
      (Except.ok result,
       { session with
         prizes := decFirstPrize session.prizes prizeName,
         winners := addWin session.winners winner.id prizeName,
         lotteryResults := session.lotteryResults ++ [result] })

/-- Embeds `Draw` (lines 88–125): fetch the session, run the draw body on it,
store the mutated session. -/
def Draw (svc : LotteryService) (now : Int) (k : Nat) (tenantID prizeName : String) :
    Except String LotteryResult × LotteryService :=
  let gs := getSession svc now tenantID
  let dc := drawCore gs.1 k prizeName
  (dc.1, setSession gs.2 tenantID dc.2)

/-- Embeds `ClearSession` (lines 183–188): `delete(s.sessions, tenantID)`. -/
def ClearSession (svc : LotteryService) (tenantID : String) : LotteryService :=
  fun t => if t == tenantID then none else svc t

/-- Go's `time.Hour` in nanoseconds. -/
def timeHour : Int := 3600000000000

/-- Go's `time.Minute` in nanoseconds. -/
def timeMinute : Int := 60000000000

/-- Embeds `CleanUpInactiveSessions` (lines 170–180): delete every session with
`time.Since(LastActivity) > time.Hour`. -/
def CleanUpInactiveSessions (svc : LotteryService) (now : Int) : LotteryService :=
  fun t =>
    match svc t with
    | some s => if now - s.lastActivity > timeHour then none else some s
    | none => none

/-- The service API as a closed set of operations, used to state reachability
invariants over arbitrary call sequences. -/
inductive Op where
  | opGetSession (now : Int) (tenantID : String)
  | opGetPrizes (now : Int) (tenantID : String)
  | opGetParticipants (now : Int) (tenantID : String)
  | opGetLotteryResults (now : Int) (tenantID : String)
  | opGetEligible (now : Int) (tenantID prizeName : String)
  | opAddPrize (now : Int) (tenantID name item : String) (quantity : Int) (drawFromAll : Bool)
  | opAddParticipant (now : Int) (tenantID id name : String)
  | opDraw (now : Int) (k : Nat) (tenantID prizeName : String)
  | opClearSession (tenantID : String)
  | opCleanUp (now : Int)
  deriving Repr

/-- The state effect of one API call. -/
def applyOp (svc : LotteryService) : Op → LotteryService
  | Op.opGetSession now tid => (getSession svc now tid).2
  | Op.opGetPrizes now tid => (GetPrizes svc now tid).2
  | Op.opGetParticipants now tid => (GetParticipants svc now tid).2
  | Op.opGetLotteryResults now tid => (GetLotteryResults svc now tid).2
  | Op.opGetEligible now tid pname => (GetEligibleParticipants svc now tid pname).2
  | Op.opAddPrize now tid name item q dfa => AddPrize svc now tid name item q dfa
  | Op.opAddParticipant now tid id name => AddParticipant svc now tid id name
  | Op.opDraw now k tid pname => (Draw svc now k tid pname).2
  | Op.opClearSession tid => ClearSession svc tid
  | Op.opCleanUp now => CleanUpInactiveSessions svc now

/-- The tenant an operation is invoked with (`none` for the global sweep). -/
def opTenant : Op → Option String
  | Op.opGetSession _ tid => some tid
  | Op.opGetPrizes _ tid => some tid
  | Op.opGetParticipants _ tid => some tid
  | Op.opGetLotteryResults _ tid => some tid
  | Op.opGetEligible _ tid _ => some tid
  | Op.opAddPrize _ tid _ _ _ _ => some tid
  | Op.opAddParticipant _ tid _ _ => some tid
  | Op.opDraw _ _ tid _ => some tid
  | Op.opClearSession tid => some tid
  | Op.opCleanUp _ => none

/-- States reachable from the fresh service by a call sequence. -/
def run (ops : List Op) : LotteryService := ops.foldl applyOp emptyService

/-- The prize list a tenant's stored session holds (empty if no session). -/
def prizesOf (svc : LotteryService) (t : String) : List Prize :=
  match svc t with
  | some s => s.prizes
  | none => []

/-- The participant list a tenant's stored session holds. -/
def participantsOf (svc : LotteryService) (t : String) : List Participant :=
  match svc t with
  | some s => s.participants
  | none => []

/-- The result log a tenant's stored session holds. -/
def resultsOf (svc : LotteryService) (t : String) : List LotteryResult :=
  match svc t with
  | some s => s.lotteryResults
  | none => []

/-- The win-record set of one participant in a tenant's stored session. -/
def winRecordOf (svc : LotteryService) (t pid : String) : List String :=
  match svc t with
  | some s => winsOf s.winners pid
  | none => []

/-- The eligibility rule as the specification words it: under `drawFromAll`,
every participant who has not already won this specific prize name; otherwise,
every participant with zero prior wins of any prize. Stated independently of
the loop in the source so that the loop can be checked against it. -/
def specEligiblePred (winners : List (String × List String)) (target : Prize)
    (prizeName : String) (p : Participant) : Bool :=
  if target.drawFromAll then !((winsOf winners p.id).contains prizeName)
  else (winsOf winners p.id).isEmpty

/-- The specified postcondition of a successful draw: the first prize matching
the drawn name loses exactly one unit (prizes before and after it, including
later prizes of the same name, are untouched), the result names that prize and
an eligible participant, the win is recorded for that participant, the result
log grows by the one appended entry, and the participant list is unchanged. -/
def DrawSuccessSpec (before after : LotterySession) (r : LotteryResult)
    (prizeName : String) : Prop :=
  ∃ pre target post,
    before.prizes = pre ++ target :: post ∧
    (∀ q ∈ pre, q.name ≠ prizeName) ∧
    target.name = prizeName ∧
    after.prizes = pre ++ { target with quantity := target.quantity - 1 } :: post ∧
    r.prizeName = target.name ∧ r.prizeItem = target.item ∧
    (∃ w ∈ eligibleOf before target prizeName,
      r.winnerID = w.id ∧ r.winnerName = w.name ∧ prizeName ∈ winsOf after.winners w.id) ∧
    after.lotteryResults = before.lotteryResults ++ [r] ∧
    after.participants = before.participants

/-- Holds of an operation when it is not an `AddPrize` call with a negative
quantity. -/
def opQuantityOK : Op → Bool
  | Op.opAddPrize _ _ _ _ q _ => decide (0 ≤ q)
  | _ => true

/-- Concrete fixture: one drawFromAll prize of quantity 1 and two
participants under tenant `"t"`. -/
def svcW : LotteryService :=
  run [Op.opAddPrize 0 "t" "P" "I" 1 true, Op.opAddParticipant 0 "t" "a" "A",
       Op.opAddParticipant 0 "t" "b" "B"]

/-- Concrete fixture: an exhausted prize (quantity 0) and one participant. -/
def svcE : LotteryService :=
  run [Op.opAddPrize 0 "t" "P" "I" 0 false, Op.opAddParticipant 0 "t" "a" "A"]

/-- Concrete fixture: a call sequence whose prize additions all use
nonnegative quantities, ending in a successful draw. -/
def opsW : List Op :=
  [Op.opAddPrize 0 "t" "P" "I" 2 true, Op.opAddParticipant 0 "t" "a" "A",
   Op.opDraw 0 0 "t" "P"]

/-- Concrete fixture for the sweep: one session idle since instant 0 and one
last active at the 56-minute mark. -/
def svc9 : LotteryService :=
  fun t =>
    if t == "idle" then some (emptySession 0)
    else if t == "active" then some (emptySession (56 * timeMinute)) else none

/-! ## Basic lemmas about the session map -/

theorem setSession_same (svc : LotteryService) (tid : String) (s : LotterySession) :
    setSession svc tid s tid = some s := by
  simp [setSession]

theorem setSession_other (svc : LotteryService) (tid : String) (s : LotterySession)
    (t : String) (h : t ≠ tid) : setSession svc tid s t = svc t := by
  simp [setSession, h]

theorem sessionOf_prizes (svc : LotteryService) (now : Int) (tid : String) :
    (sessionOf svc now tid).prizes = prizesOf svc tid := by
  unfold sessionOf prizesOf
  cases svc tid <;> rfl

theorem sessionOf_participants (svc : LotteryService) (now : Int) (tid : String) :
    (sessionOf svc now tid).participants = participantsOf svc tid := by
  unfold sessionOf participantsOf
  cases svc tid <;> rfl

theorem sessionOf_results (svc : LotteryService) (now : Int) (tid : String) :
    (sessionOf svc now tid).lotteryResults = resultsOf svc tid := by
  unfold sessionOf resultsOf
  cases svc tid <;> rfl

theorem sessionOf_winRecord (svc : LotteryService) (now : Int) (tid pid : String) :
    winsOf (sessionOf svc now tid).winners pid = winRecordOf svc tid pid := by
  unfold sessionOf winRecordOf
  cases svc tid <;> rfl

theorem prizesOf_setSession_self (svc : LotteryService) (tid : String) (s : LotterySession) :
    prizesOf (setSession svc tid s) tid = s.prizes := by
  unfold prizesOf
  rw [setSession_same]

theorem participantsOf_setSession_self (svc : LotteryService) (tid : String)
    (s : LotterySession) : participantsOf (setSession svc tid s) tid = s.participants := by
  unfold participantsOf
  rw [setSession_same]

theorem resultsOf_setSession_self (svc : LotteryService) (tid : String) (s : LotterySession) :
    resultsOf (setSession svc tid s) tid = s.lotteryResults := by
  unfold resultsOf
  rw [setSession_same]

theorem winRecordOf_setSession_self (svc : LotteryService) (tid : String)
    (s : LotterySession) (pid : String) :
    winRecordOf (setSession svc tid s) tid pid = winsOf s.winners pid := by
  unfold winRecordOf
  rw [setSession_same]

/-! ## Lemmas about prize lookup and decrement -/

theorem findPrize_decomp (prizes : List Prize) (pname : String) (target : Prize)
    (h : findPrize prizes pname = some target) :
    target.name = pname ∧
    ∃ pre post, prizes = pre ++ target :: post ∧ ∀ q ∈ pre, q.name ≠ pname := by
  unfold findPrize at h
  rw [List.find?_eq_some] at h
  obtain ⟨hp, pre, post, heq, hpre⟩ := h
  refine ⟨by simpa using hp, pre, post, heq, ?_⟩
  intro q hq
  simpa using hpre q hq

theorem decFirstPrize_of_decomp (pre post : List Prize) (target : Prize) (pname : String)
    (hpre : ∀ q ∈ pre, q.name ≠ pname) (ht : target.name = pname) :
    decFirstPrize (pre ++ target :: post) pname =
      pre ++ { target with quantity := target.quantity - 1 } :: post := by
  induction pre with
  | nil => simp [decFirstPrize, ht]
  | cons q pre ih =>
    have hq : q.name ≠ pname := hpre q (List.mem_cons_self q pre)
    simp only [List.cons_append, decFirstPrize]
    rw [if_neg (by simpa using hq)]
    exact congrArg (List.cons q) (ih (fun x hx => hpre x (List.mem_cons_of_mem q hx)))

/-! ## Lemmas about the win-record map -/

theorem winsOf_addWin_self (w : List (String × List String)) (pid pname : String) :
    pname ∈ winsOf (addWin w pid pname) pid := by
  unfold addWin
  cases hf : w.find? (fun e => e.1 == pid) with
  | none =>
    unfold winsOf
    rw [List.find?_append, hf]
    simp
  | some e =>
    unfold winsOf
    rw [List.find?_map]
    have hcomp :
        ((fun e : String × List String => e.1 == pid) ∘
          (fun e : String × List String =>
            if e.1 == pid then
              (e.1, if e.2.contains pname then e.2 else e.2 ++ [pname])
            else e))
          = (fun e : String × List String => e.1 == pid) := by
      funext x
      by_cases hx : x.1 == pid <;> simp [Function.comp, hx]
    rw [hcomp, hf]
    have hpe : (e.1 == pid) = true :=
      List.find?_some (p := fun e : String × List String => e.1 == pid) hf
    simp only [Option.map, hpe, if_pos]
    by_cases hc : e.2.contains pname
    · simp only [if_pos hc]
      simpa using hc
    · have hm : pname ∉ e.2 := by simpa using hc
      simp [hm]

/-! ## The eligibility loop computes the specified filter -/

theorem eligibleStep_eq_filterStep (w : List (String × List String)) (target : Prize)
    (pname : String) (acc : List Participant) (p : Participant) :
    eligibleStep w target pname acc p =
      if specEligiblePred w target pname p then acc ++ [p] else acc := by
  unfold eligibleStep specEligiblePred
  by_cases hd : target.drawFromAll
  · by_cases hc : (winsOf w p.id).contains pname <;> simp [hd, hc]
  · by_cases he : (winsOf w p.id).isEmpty <;> simp [hd, he]

theorem eligible_foldl_eq_filter (w : List (String × List String)) (target : Prize)
    (pname : String) (l : List Participant) :
    ∀ acc, l.foldl (eligibleStep w target pname) acc =
      acc ++ l.filter (specEligiblePred w target pname) := by
  induction l with
  | nil => intro acc; simp
  | cons p ps ih =>
    intro acc
    rw [List.foldl_cons, eligibleStep_eq_filterStep]
    by_cases hp : specEligiblePred w target pname p
    · rw [if_pos hp, ih, List.filter_cons_of_pos hp]
      simp
    · rw [if_neg hp, ih, List.filter_cons_of_neg hp]

theorem eligibleOf_eq_filter (session : LotterySession) (target : Prize) (pname : String) :
    eligibleOf session target pname =
      session.participants.filter (specEligiblePred session.winners target pname) := by
  unfold eligibleOf
  simpa using eligible_foldl_eq_filter session.winners target pname session.participants []

/-! ## Inversion of the eligibility stage -/

theorem eligibleResult_ok_inv (s : LotterySession) (pname : String)
    (el : List Participant) (h : eligibleResult s pname = Except.ok el) :
    ∃ target, findPrize s.prizes pname = some target ∧ 0 < target.quantity ∧
      el = eligibleOf s target pname ∧ el ≠ [] := by
  unfold eligibleResult at h
  cases hf : findPrize s.prizes pname with
  | none =>
    simp only [hf] at h
    exact Except.noConfusion h
  | some target =>
    simp only [hf] at h
    by_cases hq : target.quantity ≤ 0
    · simp only [if_pos hq] at h
      exact Except.noConfusion h
    · simp only [if_neg hq] at h
      by_cases he : (eligibleOf s target pname).isEmpty
      · simp only [if_pos he] at h
        exact Except.noConfusion h
      · simp only [if_neg he, Except.ok.injEq] at h
        refine ⟨target, rfl, not_le.mp hq, h.symm, ?_⟩
        rw [← h]
        simpa [List.isEmpty_eq_false] using he

/-! ## Case equations for the draw body -/

theorem drawCore_not_found (s : LotterySession) (k : Nat) (pname : String)
    (hf : findPrize s.prizes pname = none) :
    drawCore s k pname = (Except.error prizeNotFoundMsg, s) := by
  unfold drawCore eligibleResult
  simp only [hf]

theorem drawCore_exhausted (s : LotterySession) (k : Nat) (pname : String) (target : Prize)
    (hf : findPrize s.prizes pname = some target) (hq : target.quantity ≤ 0) :
    drawCore s k pname = (Except.error prizeExhaustedMsg, s) := by
  unfold drawCore eligibleResult
  simp only [hf, if_pos hq]

theorem drawCore_no_eligible (s : LotterySession) (k : Nat) (pname : String) (target : Prize)
    (hf : findPrize s.prizes pname = some target) (hq : ¬target.quantity ≤ 0)
    (he : eligibleOf s target pname = []) :
    drawCore s k pname = (Except.error noEligibleMsg, s) := by
  unfold drawCore eligibleResult
  simp only [hf, if_neg hq, he]
  rfl

theorem drawCore_success (s : LotterySession) (k : Nat) (pname : String) (target : Prize)
    (e0 : Participant) (rest : List Participant)
    (hf : findPrize s.prizes pname = some target) (hq : ¬target.quantity ≤ 0)
    (he : eligibleOf s target pname = e0 :: rest) :
    drawCore s k pname =
      (Except.ok { prizeName := target.name, prizeItem := target.item,
                   winnerID := (pickWinner e0 rest k).id,
                   winnerName := (pickWinner e0 rest k).name },
       { s with
         prizes := decFirstPrize s.prizes pname,
         winners := addWin s.winners (pickWinner e0 rest k).id pname,
         lotteryResults := s.lotteryResults ++
           [{ prizeName := target.name, prizeItem := target.item,
              winnerID := (pickWinner e0 rest k).id,
              winnerName := (pickWinner e0 rest k).name }] }) := by
  unfold drawCore eligibleResult
  simp only [hf, if_neg hq, he]
  rfl

theorem drawCore_snd_participants (s : LotterySession) (k : Nat) (pname : String) :
    (drawCore s k pname).2.participants = s.participants := by
  cases hf : findPrize s.prizes pname with
  | none => rw [drawCore_not_found s k pname hf]
  | some target =>
    by_cases hq : target.quantity ≤ 0
    · rw [drawCore_exhausted s k pname target hf hq]
    · cases he : eligibleOf s target pname with
      | nil => rw [drawCore_no_eligible s k pname target hf hq he]
      | cons e0 rest => rw [drawCore_success s k pname target e0 rest hf hq he]

theorem drawCore_snd_of_error (s : LotterySession) (k : Nat) (pname : String)
    (e : String) (h : (drawCore s k pname).1 = Except.error e) :
    (drawCore s k pname).2 = s := by
  cases hf : findPrize s.prizes pname with
  | none => rw [drawCore_not_found s k pname hf]
  | some target =>
    by_cases hq : target.quantity ≤ 0
    · rw [drawCore_exhausted s k pname target hf hq]
    · cases he : eligibleOf s target pname with
      | nil => rw [drawCore_no_eligible s k pname target hf hq he]
      | cons e0 rest =>
        rw [drawCore_success s k pname target e0 rest hf hq he] at h
        exact Except.noConfusion h

/-! ## The success case of the draw satisfies the specified postcondition -/

theorem drawCore_ok_spec (s : LotterySession) (k : Nat) (pname : String)
    (r : LotteryResult) (h : (drawCore s k pname).1 = Except.ok r) :
    DrawSuccessSpec s (drawCore s k pname).2 r pname ∧
    ∃ target, findPrize s.prizes pname = some target ∧ 0 < target.quantity := by
  cases hf : findPrize s.prizes pname with
  | none =>
    rw [drawCore_not_found s k pname hf] at h
    exact Except.noConfusion h
  | some target =>
    by_cases hq : target.quantity ≤ 0
    · rw [drawCore_exhausted s k pname target hf hq] at h
      exact Except.noConfusion h
    · cases he : eligibleOf s target pname with
      | nil =>
        rw [drawCore_no_eligible s k pname target hf hq he] at h
        exact Except.noConfusion h
      | cons e0 rest =>
        have heq := drawCore_success s k pname target e0 rest hf hq he
        rw [heq] at h
        simp only [Except.ok.injEq] at h
        obtain ⟨hname, pre, post, hdec, hpre⟩ := findPrize_decomp s.prizes pname target hf
        refine ⟨⟨pre, target, post, hdec, hpre, hname, ?_, ?_, ?_, ?_, ?_, ?_⟩,
          target, rfl, not_le.mp hq⟩
        · rw [heq]
          show decFirstPrize s.prizes pname = _
          rw [hdec]
          exact decFirstPrize_of_decomp pre post target pname hpre hname
        · rw [← h]
        · rw [← h]
        · refine ⟨pickWinner e0 rest k, ?_, ?_, ?_, ?_⟩
          · rw [he]
            exact List.get_mem _ _ _
          · rw [← h]
          · rw [← h]
          · rw [heq]
            show pname ∈ winsOf (addWin s.winners (pickWinner e0 rest k).id pname)
              (pickWinner e0 rest k).id
            exact winsOf_addWin_self _ _ _
        · rw [heq, ← h]
        · rw [heq]

/-! ## Bridging `Draw` to its body -/

theorem Draw_fst (svc : LotteryService) (now : Int) (k : Nat) (tid pname : String) :
    (Draw svc now k tid pname).1 = (drawCore (sessionOf svc now tid) k pname).1 := rfl

theorem Draw_snd_self (svc : LotteryService) (now : Int) (k : Nat) (tid pname : String) :
    (Draw svc now k tid pname).2 tid = some ((drawCore (sessionOf svc now tid) k pname).2) :=
  setSession_same _ _ _

theorem Draw_snd_other (svc : LotteryService) (now : Int) (k : Nat) (tid pname t : String)
    (h : t ≠ tid) : (Draw svc now k tid pname).2 t = svc t := by
  show setSession (setSession svc tid _) tid _ t = svc t
  rw [setSession_other _ _ _ _ h, setSession_other _ _ _ _ h]

/-! ## Frame lemmas: every tenant-directed operation leaves other tenants alone -/

theorem getSession_snd_other (svc : LotteryService) (now : Int) (tid t : String)
    (h : t ≠ tid) : (getSession svc now tid).2 t = svc t :=
  setSession_other _ _ _ _ h

theorem AddPrize_other (svc : LotteryService) (now : Int) (tid name item : String)
    (q : Int) (dfa : Bool) (t : String) (h : t ≠ tid) :
    AddPrize svc now tid name item q dfa t = svc t := by
  show setSession (setSession svc tid _) tid _ t = svc t
  rw [setSession_other _ _ _ _ h, setSession_other _ _ _ _ h]

theorem AddParticipant_other (svc : LotteryService) (now : Int) (tid id name t : String)
    (h : t ≠ tid) : AddParticipant svc now tid id name t = svc t := by
  simp only [AddParticipant]
  by_cases hc : (getSession svc now tid).1.participants.any (fun p => p.id == id)
  · rw [if_pos hc]
    exact getSession_snd_other svc now tid t h
  · rw [if_neg hc, setSession_other _ _ _ _ h]
    exact getSession_snd_other svc now tid t h

theorem ClearSession_other (svc : LotteryService) (tid t : String) (h : t ≠ tid) :
    ClearSession svc tid t = svc t := by
  simp [ClearSession, h]

theorem applyOp_other (svc : LotteryService) (op : Op) (A t : String)
    (hA : opTenant op = some A) (h : t ≠ A) : applyOp svc op t = svc t := by
  cases op with
  | opGetSession now tid =>
    simp only [opTenant, Option.some.injEq] at hA
    exact getSession_snd_other svc now tid t (hA ▸ h)
  | opGetPrizes now tid =>
    simp only [opTenant, Option.some.injEq] at hA
    exact getSession_snd_other svc now tid t (hA ▸ h)
  | opGetParticipants now tid =>
    simp only [opTenant, Option.some.injEq] at hA
    exact getSession_snd_other svc now tid t (hA ▸ h)
  | opGetLotteryResults now tid =>
    simp only [opTenant, Option.some.injEq] at hA
    exact getSession_snd_other svc now tid t (hA ▸ h)
  | opGetEligible now tid pname =>
    simp only [opTenant, Option.some.injEq] at hA
    exact getSession_snd_other svc now tid t (hA ▸ h)
  | opAddPrize now tid name item q dfa =>
    simp only [opTenant, Option.some.injEq] at hA
    exact AddPrize_other svc now tid name item q dfa t (hA ▸ h)
  | opAddParticipant now tid id name =>
    simp only [opTenant, Option.some.injEq] at hA
    exact AddParticipant_other svc now tid id name t (hA ▸ h)
  | opDraw now k tid pname =>
    simp only [opTenant, Option.some.injEq] at hA
    exact Draw_snd_other svc now k tid pname t (hA ▸ h)
  | opClearSession tid =>
    simp only [opTenant, Option.some.injEq] at hA
    exact ClearSession_other svc tid t (hA ▸ h)
  | opCleanUp now => exact Option.noConfusion hA

/-! ## Component effects of each operation at its own tenant -/

theorem prizesOf_getSession_self (svc : LotteryService) (now : Int) (tid : String) :
    prizesOf ((getSession svc now tid).2) tid = prizesOf svc tid := by
  rw [show (getSession svc now tid).2 = setSession svc tid (sessionOf svc now tid) from rfl,
    prizesOf_setSession_self, sessionOf_prizes]

theorem participantsOf_getSession_self (svc : LotteryService) (now : Int) (tid : String) :
    participantsOf ((getSession svc now tid).2) tid = participantsOf svc tid := by
  rw [show (getSession svc now tid).2 = setSession svc tid (sessionOf svc now tid) from rfl,
    participantsOf_setSession_self, sessionOf_participants]

theorem AddPrize_prizes_self (svc : LotteryService) (now : Int) (tid name item : String)
    (q : Int) (dfa : Bool) :
    prizesOf (AddPrize svc now tid name item q dfa) tid =
      prizesOf svc tid ++
        [{ name := name, item := item, quantity := q, drawFromAll := dfa }] := by
  show prizesOf (setSession _ tid _) tid = _
  rw [prizesOf_setSession_self]
  show (sessionOf svc now tid).prizes ++ _ = _
  rw [sessionOf_prizes]

theorem AddPrize_participants_self (svc : LotteryService) (now : Int) (tid name item : String)
    (q : Int) (dfa : Bool) :
    participantsOf (AddPrize svc now tid name item q dfa) tid = participantsOf svc tid := by
  show participantsOf (setSession _ tid _) tid = _
  rw [participantsOf_setSession_self]
  show (sessionOf svc now tid).participants = _
  rw [sessionOf_participants]

theorem AddParticipant_prizes_self (svc : LotteryService) (now : Int) (tid id name : String) :
    prizesOf (AddParticipant svc now tid id name) tid = prizesOf svc tid := by
  simp only [AddParticipant]
  by_cases hc : (getSession svc now tid).1.participants.any (fun p => p.id == id)
  · rw [if_pos hc]
    exact prizesOf_getSession_self svc now tid
  · rw [if_neg hc, prizesOf_setSession_self]
    show (sessionOf svc now tid).prizes = _
    rw [sessionOf_prizes]

theorem AddParticipant_participants_self (svc : LotteryService) (now : Int)
    (tid id name : String) :
    participantsOf (AddParticipant svc now tid id name) tid =
      if (participantsOf svc tid).any (fun p => p.id == id)
      then participantsOf svc tid
      else participantsOf svc tid ++ [{ id := id, name := name }] := by
  simp only [AddParticipant]
  rw [show (getSession svc now tid).1 = sessionOf svc now tid from rfl]
  rw [sessionOf_participants]
  by_cases hc : (participantsOf svc tid).any (fun p => p.id == id)
  · simp only [if_pos hc]
    exact participantsOf_getSession_self svc now tid
  · simp only [if_neg hc, participantsOf_setSession_self, sessionOf_participants]

theorem Draw_participants_self (svc : LotteryService) (now : Int) (k : Nat)
    (tid pname : String) :
    participantsOf ((Draw svc now k tid pname).2) tid = participantsOf svc tid := by
  have h1 : participantsOf ((Draw svc now k tid pname).2) tid =
      (drawCore (sessionOf svc now tid) k pname).2.participants := by
    unfold participantsOf
    rw [Draw_snd_self]
  rw [h1, drawCore_snd_participants, sessionOf_participants]

theorem cleanUp_cases (svc : LotteryService) (now : Int) (t : String) :
    CleanUpInactiveSessions svc now t = none ∨
      CleanUpInactiveSessions svc now t = svc t := by
  unfold CleanUpInactiveSessions
  cases hs : svc t with
  | none => left; rfl
  | some s =>
    by_cases hidle : now - s.lastActivity > timeHour
    · left; simp [hidle]
    · right; simp [hidle]

theorem ClearSession_self (svc : LotteryService) (tid : String) :
    ClearSession svc tid tid = none := by
  simp [ClearSession]

/-! ## Congruence and projection helpers -/

theorem sessionOf_congr (svc1 svc2 : LotteryService) (now : Int) (t : String)
    (h : svc1 t = svc2 t) : sessionOf svc1 now t = sessionOf svc2 now t := by
  unfold sessionOf
  rw [h]

theorem prizesOf_congr (svc1 svc2 : LotteryService) (t : String) (h : svc1 t = svc2 t) :
    prizesOf svc1 t = prizesOf svc2 t := by
  unfold prizesOf
  rw [h]

theorem participantsOf_congr (svc1 svc2 : LotteryService) (t : String)
    (h : svc1 t = svc2 t) : participantsOf svc1 t = participantsOf svc2 t := by
  unfold participantsOf
  rw [h]

theorem GetPrizes_snd (svc : LotteryService) (now : Int) (tid : String) :
    (GetPrizes svc now tid).2 = (getSession svc now tid).2 := rfl

theorem GetParticipants_snd (svc : LotteryService) (now : Int) (tid : String) :
    (GetParticipants svc now tid).2 = (getSession svc now tid).2 := rfl

theorem GetLotteryResults_snd (svc : LotteryService) (now : Int) (tid : String) :
    (GetLotteryResults svc now tid).2 = (getSession svc now tid).2 := rfl

theorem GetEligibleParticipants_snd (svc : LotteryService) (now : Int)
    (tid pname : String) :
    (GetEligibleParticipants svc now tid pname).2 = (getSession svc now tid).2 := rfl

/-! ## The draw body never drives a quantity below zero -/

theorem drawCore_preserves_nonneg (s : LotterySession) (k : Nat) (pname : String)
    (hs : ∀ p ∈ s.prizes, 0 ≤ p.quantity) :
    ∀ p ∈ (drawCore s k pname).2.prizes, 0 ≤ p.quantity := by
  intro p hp
  cases hf : findPrize s.prizes pname with
  | none =>
    rw [drawCore_not_found s k pname hf] at hp
    exact hs p hp
  | some target =>
    by_cases hq : target.quantity ≤ 0
    · rw [drawCore_exhausted s k pname target hf hq] at hp
      exact hs p hp
    · cases he : eligibleOf s target pname with
      | nil =>
        rw [drawCore_no_eligible s k pname target hf hq he] at hp
        exact hs p hp
      | cons e0 rest =>
        rw [drawCore_success s k pname target e0 rest hf hq he] at hp
        have hp' : p ∈ decFirstPrize s.prizes pname := hp
        obtain ⟨hname, pre, post, hdec, hpre⟩ := findPrize_decomp s.prizes pname target hf
        rw [hdec, decFirstPrize_of_decomp pre post target pname hpre hname] at hp'
        rcases List.mem_append.mp hp' with h1 | h1
        · exact hs p (hdec ▸ List.mem_append_left _ h1)
        · rcases List.mem_cons.mp h1 with rfl | h2
          · have hpos : 0 < target.quantity := not_le.mp hq
            show 0 ≤ target.quantity - 1
            omega
          · exact hs p (hdec ▸ List.mem_append_right _ (List.mem_cons_of_mem _ h2))

/-! ## Every operation preserves nonnegative prize quantities (given validated adds) -/

theorem applyOp_preserves_nonneg (svc : LotteryService) (op : Op)
    (hs : ∀ t, ∀ p ∈ prizesOf svc t, 0 ≤ p.quantity) (hok : opQuantityOK op = true) :
    ∀ t, ∀ p ∈ prizesOf (applyOp svc op) t, 0 ≤ p.quantity := by
  intro t p hp
  cases op with
  | opGetSession now tid =>
    simp only [applyOp] at hp
    by_cases ht : t = tid
    · subst ht
      rw [prizesOf_getSession_self] at hp
      exact hs t p hp
    · rw [prizesOf_congr _ svc t (getSession_snd_other svc now tid t ht)] at hp
      exact hs t p hp
  | opGetPrizes now tid =>
    simp only [applyOp] at hp
    rw [prizesOf_congr _ ((getSession svc now tid).2) t
      (congrFun (GetPrizes_snd svc now tid) t)] at hp
    by_cases ht : t = tid
    · subst ht
      rw [prizesOf_getSession_self] at hp
      exact hs t p hp
    · rw [prizesOf_congr _ svc t (getSession_snd_other svc now tid t ht)] at hp
      exact hs t p hp
  | opGetParticipants now tid =>
    simp only [applyOp] at hp
    rw [prizesOf_congr _ ((getSession svc now tid).2) t
      (congrFun (GetParticipants_snd svc now tid) t)] at hp
    by_cases ht : t = tid
    · subst ht
      rw [prizesOf_getSession_self] at hp
      exact hs t p hp
    · rw [prizesOf_congr _ svc t (getSession_snd_other svc now tid t ht)] at hp
      exact hs t p hp
  | opGetLotteryResults now tid =>
    simp only [applyOp] at hp
    rw [prizesOf_congr _ ((getSession svc now tid).2) t
      (congrFun (GetLotteryResults_snd svc now tid) t)] at hp
    by_cases ht : t = tid
    · subst ht
      rw [prizesOf_getSession_self] at hp
      exact hs t p hp
    · rw [prizesOf_congr _ svc t (getSession_snd_other svc now tid t ht)] at hp
      exact hs t p hp
  | opGetEligible now tid pname =>
    simp only [applyOp] at hp
    rw [prizesOf_congr _ ((getSession svc now tid).2) t
      (congrFun (GetEligibleParticipants_snd svc now tid pname) t)] at hp
    by_cases ht : t = tid
    · subst ht
      rw [prizesOf_getSession_self] at hp
      exact hs t p hp
    · rw [prizesOf_congr _ svc t (getSession_snd_other svc now tid t ht)] at hp
      exact hs t p hp
  | opAddPrize now tid name item q dfa =>
    simp only [applyOp] at hp
    by_cases ht : t = tid
    · subst ht
      rw [AddPrize_prizes_self] at hp
      rcases List.mem_append.mp hp with h1 | h1
      · exact hs t p h1
      · have hpq : p = { name := name, item := item, quantity := q, drawFromAll := dfa } :=
          List.mem_singleton.mp h1
        subst hpq
        show 0 ≤ q
        simp only [opQuantityOK] at hok
        exact of_decide_eq_true hok
    · rw [prizesOf_congr _ svc t (AddPrize_other svc now tid name item q dfa t ht)] at hp
      exact hs t p hp
  | opAddParticipant now tid id name =>
    simp only [applyOp] at hp
    by_cases ht : t = tid
    · subst ht
      rw [AddParticipant_prizes_self] at hp
      exact hs t p hp
    · rw [prizesOf_congr _ svc t (AddParticipant_other svc now tid id name t ht)] at hp
      exact hs t p hp
  | opDraw now k tid pname =>
    simp only [applyOp] at hp
    by_cases ht : t = tid
    · subst ht
      have hD : prizesOf ((Draw svc now k t pname).2) t =
          (drawCore (sessionOf svc now t) k pname).2.prizes := by
        unfold prizesOf
        rw [Draw_snd_self]
      rw [hD] at hp
      have hs0 : ∀ p ∈ (sessionOf svc now t).prizes, 0 ≤ p.quantity := by
        rw [sessionOf_prizes]
        exact hs t
      exact drawCore_preserves_nonneg (sessionOf svc now t) k pname hs0 p hp
    · rw [prizesOf_congr _ svc t (Draw_snd_other svc now k tid pname t ht)] at hp
      exact hs t p hp
  | opClearSession tid =>
    simp only [applyOp] at hp
    by_cases ht : t = tid
    · subst ht
      have hnil : prizesOf (ClearSession svc t) t = [] := by
        unfold prizesOf
        rw [ClearSession_self]
      rw [hnil] at hp
      exact absurd hp (List.not_mem_nil p)
    · rw [prizesOf_congr _ svc t (ClearSession_other svc tid t ht)] at hp
      exact hs t p hp
  | opCleanUp now =>
    simp only [applyOp] at hp
    rcases cleanUp_cases svc now t with hc | hc
    · have hnil : prizesOf (CleanUpInactiveSessions svc now) t = [] := by
        unfold prizesOf
        rw [hc]
      rw [hnil] at hp
      exact absurd hp (List.not_mem_nil p)
    · rw [prizesOf_congr _ svc t hc] at hp
      exact hs t p hp

/-! ## Every operation preserves uniqueness of participant IDs -/

theorem applyOp_preserves_nodup (svc : LotteryService) (op : Op)
    (hs : ∀ t, ((participantsOf svc t).map Participant.id).Nodup) :
    ∀ t, ((participantsOf (applyOp svc op) t).map Participant.id).Nodup := by
  intro t
  cases op with
  | opGetSession now tid =>
    simp only [applyOp]
    by_cases ht : t = tid
    · subst ht
      rw [participantsOf_getSession_self]
      exact hs t
    · rw [participantsOf_congr _ svc t (getSession_snd_other svc now tid t ht)]
      exact hs t
  | opGetPrizes now tid =>
    simp only [applyOp]
    rw [participantsOf_congr _ ((getSession svc now tid).2) t
      (congrFun (GetPrizes_snd svc now tid) t)]
    by_cases ht : t = tid
    · subst ht
      rw [participantsOf_getSession_self]
      exact hs t
    · rw [participantsOf_congr _ svc t (getSession_snd_other svc now tid t ht)]
      exact hs t
  | opGetParticipants now tid =>
    simp only [applyOp]
    rw [participantsOf_congr _ ((getSession svc now tid).2) t
      (congrFun (GetParticipants_snd svc now tid) t)]
    by_cases ht : t = tid
    · subst ht
      rw [participantsOf_getSession_self]
      exact hs t
    · rw [participantsOf_congr _ svc t (getSession_snd_other svc now tid t ht)]
      exact hs t
  | opGetLotteryResults now tid =>
    simp only [applyOp]
    rw [participantsOf_congr _ ((getSession svc now tid).2) t
      (congrFun (GetLotteryResults_snd svc now tid) t)]
    by_cases ht : t = tid
    · subst ht
      rw [participantsOf_getSession_self]
      exact hs t
    · rw [participantsOf_congr _ svc t (getSession_snd_other svc now tid t ht)]
      exact hs t
  | opGetEligible now tid pname =>
    simp only [applyOp]
    rw [participantsOf_congr _ ((getSession svc now tid).2) t
      (congrFun (GetEligibleParticipants_snd svc now tid pname) t)]
    by_cases ht : t = tid
    · subst ht
      rw [participantsOf_getSession_self]
      exact hs t
    · rw [participantsOf_congr _ svc t (getSession_snd_other svc now tid t ht)]
      exact hs t
  | opAddPrize now tid name item q dfa =>
    simp only [applyOp]
    by_cases ht : t = tid
    · subst ht
      rw [AddPrize_participants_self]
      exact hs t
    · rw [participantsOf_congr _ svc t (AddPrize_other svc now tid name item q dfa t ht)]
      exact hs t
  | opAddParticipant now tid pid0 name =>
    simp only [applyOp]
    by_cases ht : t = tid
    · subst ht
      rw [AddParticipant_participants_self]
      by_cases hc : (participantsOf svc t).any (fun p => p.id == pid0)
      · rw [if_pos hc]
        exact hs t
      · rw [if_neg hc, List.map_append, List.nodup_append]
        refine ⟨hs t, List.nodup_singleton _, ?_⟩
        intro a ha hb
        have hb' : a = pid0 := by simpa using hb
        rcases List.mem_map.mp ha with ⟨x, hx, hxa⟩
        have hcf : (participantsOf svc t).any (fun p => p.id == pid0) = false :=
          Bool.eq_false_iff.mpr hc
        have hxne := List.any_eq_false.mp hcf x hx
        exact hxne (by simp [hxa, hb'])
    · rw [participantsOf_congr _ svc t (AddParticipant_other svc now tid pid0 name t ht)]
      exact hs t
  | opDraw now k tid pname =>
    simp only [applyOp]
    by_cases ht : t = tid
    · subst ht
      rw [Draw_participants_self]
      exact hs t
    · rw [participantsOf_congr _ svc t (Draw_snd_other svc now k tid pname t ht)]
      exact hs t
  | opClearSession tid =>
    simp only [applyOp]
    by_cases ht : t = tid
    · subst ht
      have hnil : participantsOf (ClearSession svc t) t = [] := by
        unfold participantsOf
        rw [ClearSession_self]
      rw [hnil]
      simp
    · rw [participantsOf_congr _ svc t (ClearSession_other svc tid t ht)]
      exact hs t
  | opCleanUp now =>
    simp only [applyOp]
    rcases cleanUp_cases svc now t with hc | hc
    · have hnil : participantsOf (CleanUpInactiveSessions svc now) t = [] := by
        unfold participantsOf
        rw [hc]
      rw [hnil]
      simp
    · rw [participantsOf_congr _ svc t hc]
      exact hs t

/-! ## Reachability inductions -/

theorem foldl_preserves_nonneg (ops : List Op) :
    ∀ svc : LotteryService, (∀ t, ∀ p ∈ prizesOf svc t, 0 ≤ p.quantity) →
      (∀ op ∈ ops, opQuantityOK op = true) →
      ∀ t, ∀ p ∈ prizesOf (List.foldl applyOp svc ops) t, 0 ≤ p.quantity := by
  induction ops with
  | nil => intro svc hsvc _; exact hsvc
  | cons op ops ih =>
    intro svc hsvc hok
    exact ih (applyOp svc op)
      (applyOp_preserves_nonneg svc op hsvc (hok op (List.mem_cons_self _ _)))
      (fun o ho => hok o (List.mem_cons_of_mem _ ho))

theorem foldl_preserves_nodup (ops : List Op) :
    ∀ svc : LotteryService, (∀ t, ((participantsOf svc t).map Participant.id).Nodup) →
      ∀ t, ((participantsOf (List.foldl applyOp svc ops) t).map Participant.id).Nodup := by
  induction ops with
  | nil => intro svc hsvc; exact hsvc
  | cons op ops ih =>
    intro svc hsvc
    exact ih (applyOp svc op) (applyOp_preserves_nodup svc op hsvc)

theorem run_participants_nodup (ops : List Op) (t : String) :
    ((participantsOf (run ops) t).map Participant.id).Nodup := by
  refine foldl_preserves_nodup ops emptyService ?_ t
  intro t'
  simp [participantsOf, emptyService]

/-! ## Claim theorems -/

/-- C1: whenever `Draw` returns a result (no error), the tenant's stored
session afterwards satisfies the success postcondition: the first prize named
`prizeName` loses exactly one unit of quantity (later prizes of the same name
and all other prizes are unchanged), the result log grows by the one appended
entry whose prize fields are the drawn prize's name and item and whose winner
fields are those of a participant eligible at draw time, that prize name is
added to the winner's win-record set, and the participant list is unchanged. -/
theorem draw_success_updates_state (svc : LotteryService) (now : Int) (k : Nat)
    (tid pname : String) (r : LotteryResult)
    (h : (Draw svc now k tid pname).1 = Except.ok r) :
    ∃ s', (Draw svc now k tid pname).2 tid = some s' ∧
      DrawSuccessSpec (sessionOf svc now tid) s' r pname := by
  have h' : (drawCore (sessionOf svc now tid) k pname).1 = Except.ok r := h
  exact ⟨_, Draw_snd_self svc now k tid pname,
    (drawCore_ok_spec (sessionOf svc now tid) k pname r h').1⟩

theorem draw_success_updates_state_witness :
    ∃ s', (Draw svcW 0 0 "t" "P").2 "t" = some s' ∧
      DrawSuccessSpec (sessionOf svcW 0 "t") s'
        { prizeName := "P", prizeItem := "I", winnerID := "a", winnerName := "A" } "P" :=
  draw_success_updates_state svcW 0 0 "t" "P"
    { prizeName := "P", prizeItem := "I", winnerID := "a", winnerName := "A" } (by rfl)

/-- C2: when the first prize matching the drawn name exists and has positive
quantity, the computed eligible participant list is exactly the participant
list filtered, in order, by the specified rule — under `drawFromAll`, those who
have not already won this specific prize name; otherwise, those whose win
record is empty — and `GetEligibleParticipants` returns exactly that list (or
the no-eligible error when it is empty). -/
theorem eligible_participants_characterization (svc : LotteryService) (now : Int)
    (tid pname : String) (target : Prize)
    (hfind : findPrize (sessionOf svc now tid).prizes pname = some target)
    (hq : 0 < target.quantity) :
    eligibleOf (sessionOf svc now tid) target pname =
      (sessionOf svc now tid).participants.filter
        (specEligiblePred (sessionOf svc now tid).winners target pname) ∧
    (GetEligibleParticipants svc now tid pname).1 =
      (if ((sessionOf svc now tid).participants.filter
            (specEligiblePred (sessionOf svc now tid).winners target pname)).isEmpty
       then Except.error noEligibleMsg
       else Except.ok ((sessionOf svc now tid).participants.filter
            (specEligiblePred (sessionOf svc now tid).winners target pname))) := by
  have hel := eligibleOf_eq_filter (sessionOf svc now tid) target pname
  refine ⟨hel, ?_⟩
  show eligibleResult (sessionOf svc now tid) pname = _
  unfold eligibleResult
  simp only [hfind]
  rw [if_neg (not_le.mpr hq), ← hel]

theorem eligible_participants_characterization_witness :
    eligibleOf (sessionOf svcW 0 "t")
        { name := "P", item := "I", quantity := 1, drawFromAll := true } "P" =
      (sessionOf svcW 0 "t").participants.filter
        (specEligiblePred (sessionOf svcW 0 "t").winners
          { name := "P", item := "I", quantity := 1, drawFromAll := true } "P") :=
  (eligible_participants_characterization svcW 0 "t" "P"
    { name := "P", item := "I", quantity := 1, drawFromAll := true }
    (by rfl) (by decide)).1

/-- C3: `Draw` fails with the prize-not-found error exactly when no prize of
that name exists; otherwise with the prize-exhausted error exactly when the
first matching prize has quantity ≤ 0; otherwise with the no-eligible error
exactly when the eligible set is empty; otherwise it succeeds. The three error
kinds are pairwise distinct. -/
theorem draw_error_classification (svc : LotteryService) (now : Int) (k : Nat)
    (tid pname : String) :
    (match findPrize (sessionOf svc now tid).prizes pname with
     | none => (Draw svc now k tid pname).1 = Except.error prizeNotFoundMsg
     | some target =>
       if target.quantity ≤ 0 then
         (Draw svc now k tid pname).1 = Except.error prizeExhaustedMsg
       else if eligibleOf (sessionOf svc now tid) target pname = [] then
         (Draw svc now k tid pname).1 = Except.error noEligibleMsg
       else ∃ r, (Draw svc now k tid pname).1 = Except.ok r) ∧
    (prizeNotFoundMsg ≠ prizeExhaustedMsg ∧ prizeNotFoundMsg ≠ noEligibleMsg ∧
      prizeExhaustedMsg ≠ noEligibleMsg) := by
  refine ⟨?_, by decide, by decide, by decide⟩
  cases hf : findPrize (sessionOf svc now tid).prizes pname with
  | none => rw [Draw_fst, drawCore_not_found _ _ _ hf]
  | some target =>
    dsimp only
    by_cases hq : target.quantity ≤ 0
    · rw [if_pos hq, Draw_fst, drawCore_exhausted _ _ _ _ hf hq]
    · rw [if_neg hq]
      cases he : eligibleOf (sessionOf svc now tid) target pname with
      | nil =>
        rw [if_pos rfl, Draw_fst, drawCore_no_eligible _ _ _ _ hf hq he]
      | cons e0 rest =>
        rw [if_neg (List.cons_ne_nil e0 rest)]
        exact ⟨_, by rw [Draw_fst, drawCore_success _ _ _ _ e0 rest hf hq he]⟩

/-- C4: every failing `Draw` leaves the tenant's prizes, participants, result
log, and win records exactly as they were (the session is only touched by the
`getSession` heartbeat), and a draw on a first-matching prize of quantity 0
always fails with the prize-exhausted error. -/
theorem draw_failure_preserves_session (svc : LotteryService) (now : Int) (k : Nat)
    (tid pname : String) :
    (∀ e, (Draw svc now k tid pname).1 = Except.error e →
      prizesOf ((Draw svc now k tid pname).2) tid = prizesOf svc tid ∧
      participantsOf ((Draw svc now k tid pname).2) tid = participantsOf svc tid ∧
      resultsOf ((Draw svc now k tid pname).2) tid = resultsOf svc tid ∧
      ∀ pid, winRecordOf ((Draw svc now k tid pname).2) tid pid = winRecordOf svc tid pid) ∧
    (∀ target, findPrize (sessionOf svc now tid).prizes pname = some target →
      target.quantity = 0 →
      (Draw svc now k tid pname).1 = Except.error prizeExhaustedMsg) := by
  constructor
  · intro e he
    have hsnd : (drawCore (sessionOf svc now tid) k pname).2 = sessionOf svc now tid :=
      drawCore_snd_of_error _ k pname e he
    have h2 : (Draw svc now k tid pname).2 tid = some (sessionOf svc now tid) := by
      rw [Draw_snd_self, hsnd]
    refine ⟨?_, ?_, ?_, ?_⟩
    · have h1 : prizesOf ((Draw svc now k tid pname).2) tid =
          (sessionOf svc now tid).prizes := by
        unfold prizesOf
        rw [h2]
      rw [h1, sessionOf_prizes]
    · have h1 : participantsOf ((Draw svc now k tid pname).2) tid =
          (sessionOf svc now tid).participants := by
        unfold participantsOf
        rw [h2]
      rw [h1, sessionOf_participants]
    · have h1 : resultsOf ((Draw svc now k tid pname).2) tid =
          (sessionOf svc now tid).lotteryResults := by
        unfold resultsOf
        rw [h2]
      rw [h1, sessionOf_results]
    · intro pid
      have h1 : winRecordOf ((Draw svc now k tid pname).2) tid pid =
          winsOf (sessionOf svc now tid).winners pid := by
        unfold winRecordOf
        rw [h2]
      rw [h1, sessionOf_winRecord]
  · intro target hf hq0
    rw [Draw_fst, drawCore_exhausted _ _ _ target hf (le_of_eq hq0)]

theorem draw_failure_preserves_session_witness :
    (Draw svcE 5 0 "t" "P").1 = Except.error prizeExhaustedMsg ∧
    prizesOf ((Draw svcE 5 0 "t" "P").2) "t" = prizesOf svcE "t" ∧
    participantsOf ((Draw svcE 5 0 "t" "P").2) "t" = participantsOf svcE "t" := by
  have h := draw_failure_preserves_session svcE 5 0 "t" "P"
  have he : (Draw svcE 5 0 "t" "P").1 = Except.error prizeExhaustedMsg :=
    h.2 { name := "P", item := "I", quantity := 0, drawFromAll := false } (by rfl) rfl
  exact ⟨he, (h.1 _ he).1, (h.1 _ he).2.1⟩

/-- C5, counterexample: the claim "every reachable state has only nonnegative
prize quantities" is false — a single `AddPrize` call with quantity −1 reaches
a state holding a prize of negative quantity. -/
theorem addPrize_negative_quantity_reachable :
    ∃ p ∈ prizesOf (run [Op.opAddPrize 0 "t" "P" "I" (-1) false]) "t",
      p.quantity < 0 := by
  decide

/-- C5, amended: in every state reachable by a call sequence whose `AddPrize`
calls all use nonnegative quantities, every prize's quantity is ≥ 0 — in
particular a draw never drives a quantity below zero. -/
theorem quantity_nonneg_of_validated_adds (ops : List Op)
    (h : ∀ op ∈ ops, opQuantityOK op = true) :
    ∀ t : String, ∀ p ∈ prizesOf (run ops) t, 0 ≤ p.quantity := by
  intro t
  refine foldl_preserves_nonneg ops emptyService ?_ h t
  intro t' p hp
  simp [prizesOf, emptyService] at hp

theorem quantity_nonneg_of_validated_adds_witness :
    0 ≤ (Prize.quantity { name := "P", item := "I", quantity := 1, drawFromAll := true }) :=
  quantity_nonneg_of_validated_adds opsW (by decide) "t"
    { name := "P", item := "I", quantity := 1, drawFromAll := true } (by decide)

/-- C6: tenant isolation — every tenant-directed operation (session fetch,
accessors, eligibility query, prize/participant insertion, draw, session
clear) leaves every other tenant's stored session untouched, and the values
the accessors return for the other tenant are unchanged. -/
theorem tenant_isolation (svc : LotteryService) (op : Op) (A B : String) (now : Int)
    (hA : opTenant op = some A) (hAB : A ≠ B) :
    applyOp svc op B = svc B ∧
    prizesOf (applyOp svc op) B = prizesOf svc B ∧
    participantsOf (applyOp svc op) B = participantsOf svc B ∧
    resultsOf (applyOp svc op) B = resultsOf svc B ∧
    (∀ pid, winRecordOf (applyOp svc op) B pid = winRecordOf svc B pid) ∧
    (GetPrizes (applyOp svc op) now B).1 = (GetPrizes svc now B).1 ∧
    (GetParticipants (applyOp svc op) now B).1 = (GetParticipants svc now B).1 ∧
    (GetLotteryResults (applyOp svc op) now B).1 = (GetLotteryResults svc now B).1 := by
  have hB : applyOp svc op B = svc B := applyOp_other svc op A B hA (Ne.symm hAB)
  have hsess : sessionOf (applyOp svc op) now B = sessionOf svc now B :=
    sessionOf_congr _ _ now B hB
  refine ⟨hB, ?_, ?_, ?_, ?_, ?_, ?_, ?_⟩
  · unfold prizesOf
    rw [hB]
  · unfold participantsOf
    rw [hB]
  · unfold resultsOf
    rw [hB]
  · intro pid
    unfold winRecordOf
    rw [hB]
  · show (sessionOf (applyOp svc op) now B).prizes = (sessionOf svc now B).prizes
    rw [hsess]
  · show (sessionOf (applyOp svc op) now B).participants = (sessionOf svc now B).participants
    rw [hsess]
  · show (sessionOf (applyOp svc op) now B).lotteryResults =
      (sessionOf svc now B).lotteryResults
    rw [hsess]

theorem tenant_isolation_witness :
    applyOp svcW (Op.opAddPrize 0 "a" "X" "Y" 3 false) "b" = svcW "b" :=
  (tenant_isolation svcW (Op.opAddPrize 0 "a" "X" "Y" 3 false) "a" "b" 0 rfl
    (by decide)).1

/-- C7: `AddParticipant` appends exactly when the ID is absent and is a silent
no-op otherwise (it returns nothing, so no error can be signalled), and in
every reachable state the participant IDs of every tenant are pairwise
distinct. -/
theorem participant_ids_unique :
    (∀ svc : LotteryService, ∀ now : Int, ∀ tid id name : String,
      participantsOf (AddParticipant svc now tid id name) tid =
        if (participantsOf svc tid).any (fun p => p.id == id)
        then participantsOf svc tid
        else participantsOf svc tid ++ [{ id := id, name := name }]) ∧
    (∀ ops : List Op, ∀ t : String,
      ((participantsOf (run ops) t).map Participant.id).Nodup) :=
  ⟨AddParticipant_participants_self, run_participants_nodup⟩

/-- C8: `getSession` returns the stored session (with its last-activity
refreshed to the current instant) when one exists and otherwise creates,
registers, and returns an empty session — no prizes, participants, win
records, or results; a second call returns the same session data again, not a
fresh one, with only the last-activity stamp moved. -/
theorem getSession_get_or_create (svc : LotteryService) (now now' : Int) (t : String) :
    (getSession svc now t).1 =
      (match svc t with
       | some s => { s with lastActivity := now }
       | none => emptySession now) ∧
    (emptySession now).prizes = [] ∧
    (emptySession now).participants = [] ∧
    (emptySession now).winners = [] ∧
    (emptySession now).lotteryResults = [] ∧
    (getSession svc now t).2 t = some ((getSession svc now t).1) ∧
    (getSession ((getSession svc now t).2) now' t).1 =
      { (getSession svc now t).1 with lastActivity := now' } := by
  refine ⟨rfl, rfl, rfl, rfl, rfl, setSession_same _ _ _, ?_⟩
  show sessionOf (setSession svc t (sessionOf svc now t)) now' t = _
  unfold sessionOf
  rw [setSession_same]
  rfl

/-- C9: the sweep removes exactly the sessions whose last activity is more
than one hour before the current instant, and returns every surviving session
unchanged. -/
theorem sweep_removes_exactly_stale (svc : LotteryService) (now : Int) (t : String) :
    (∀ s, svc t = some s → now - s.lastActivity > timeHour →
      CleanUpInactiveSessions svc now t = none) ∧
    (∀ s, svc t = some s → ¬(now - s.lastActivity > timeHour) →
      CleanUpInactiveSessions svc now t = some s) := by
  constructor <;> intro s hs hidle <;> unfold CleanUpInactiveSessions <;>
    simp only [hs] <;> simp [hidle]

theorem sweep_removes_exactly_stale_witness :
    CleanUpInactiveSessions svc9 (61 * timeMinute) "idle" = none ∧
    CleanUpInactiveSessions svc9 (61 * timeMinute) "active" =
      some (emptySession (56 * timeMinute)) := by
  constructor
  · exact (sweep_removes_exactly_stale svc9 (61 * timeMinute) "idle").1
      (emptySession 0) (by rfl) (by decide)
  · exact (sweep_removes_exactly_stale svc9 (61 * timeMinute) "active").2
      (emptySession (56 * timeMinute)) (by rfl) (by decide)

/-- C10: `AddPrize` performs no validation — with any quantity ≤ 0 (including
negative values) it succeeds and appends the prize as given — and any draw
whose first matching prize has quantity ≤ 0 fails with the prize-exhausted
error, so such a prize can never be won. -/
theorem addPrize_no_validation (svc : LotteryService) (now : Int)
    (tid name item : String) (q : Int) (dfa : Bool) (hq : q ≤ 0) :
    prizesOf (AddPrize svc now tid name item q dfa) tid =
      prizesOf svc tid ++
        [{ name := name, item := item, quantity := q, drawFromAll := dfa }] ∧
    (∀ svc' : LotteryService, ∀ now' : Int, ∀ k : Nat, ∀ target : Prize,
      findPrize (sessionOf svc' now' tid).prizes name = some target →
      target.quantity ≤ 0 →
      (Draw svc' now' k tid name).1 = Except.error prizeExhaustedMsg) := by
  refine ⟨AddPrize_prizes_self svc now tid name item q dfa, ?_⟩
  intro svc' now' k target hf ht
  rw [Draw_fst, drawCore_exhausted _ _ _ target hf ht]

theorem addPrize_no_validation_witness :
    prizesOf (AddPrize emptyService 0 "t" "P" "I" (-1) false) "t" =
      prizesOf emptyService "t" ++
        [{ name := "P", item := "I", quantity := -1, drawFromAll := false }] :=
  (addPrize_no_validation emptyService 0 "t" "P" "I" (-1) false (by decide)).1

end Lottery
